import Mathlib

/-!
Shallow embedding of `wombat/windfarm/system/cable.py`: the per-asset
concurrent process model of a cable segment in a wind-farm O&M simulation.
Times and operating levels are rationals; simpy events are modelled as
records carrying a creation id (drawn from a monotone counter in the
environment) and a `triggered` flag; the failure/maintenance generator
processes are modelled as explicit small-step machines over a program
counter mirroring the suspension points of the Python generators.
-/

namespace Wombat

/-- A simpy event used as a gating signal: `triggered = true` means the
signal is clear ("processed"), `triggered = false` means blocked.  The `id`
is the value of the environment's event counter at creation, so a fresh
event always carries an id no smaller than the counter at the time the
surrounding operation started. -/
structure Event where
  id : Nat
  triggered : Bool
deriving DecidableEq, Repr

/-- An entry written by `env.log_action`; fields that a call site leaves
out (or passes `np.nan` for) are `none`. -/
structure LogEntry where
  system_id : Option String := none
  system_name : Option String := none
  part_id : Option String := none
  part_name : Option String := none
  system_ol : Option ℚ := none
  part_ol : Option ℚ := none
  agent : String
  action : String
  reason : String
  additional : String
  request_id : Option Nat := none
deriving DecidableEq, Repr

/-- The simulation environment boundary (`WombatEnvironment`): current
simulated time, the horizon, the event-id counter backing `env.event()`,
and the structured action log. -/
structure Env where
  now : ℚ
  max_run_time : ℚ
  counter : Nat
  log : List LogEntry
deriving DecidableEq, Repr

/-- Modelled from the spec: `env.event()` creates a fresh blocked signal;
each call returns a new (untriggered) event and advances the counter. -/
def Env.newEvent (e : Env) : Event × Env :=
  (⟨e.counter, false⟩, { e with counter := e.counter + 1 })

/-- A `Failure` classification: severity level, fraction of capability
lost, and human-readable description.  The hazard draw
(`hours_to_next_failure`) is an oracle and enters the machine as an
input. -/
structure Failure where
  level : Nat
  operation_reduction : ℚ
  description : String
deriving DecidableEq, Repr

/-- A `Maintenance` category: hours between occurrences (`0` puts the
process into the horizon-wait branch) and a description. -/
structure Maintenance where
  frequency : ℚ
  description : String
deriving DecidableEq, Repr

/-- A `RepairRequest` as constructed by the cable code: system and part
identity fields, severity, the `cable` flag, snapshots of the upstream
topology, and the id assigned later by the repair manager. -/
structure RepairRequest where
  system_id : String
  system_name : String
  part_id : String
  part_name : String
  severity : Nat
  cable : Bool
  upstream_turbines : List String
  upstream_cables : List (String × String)
  request_id : Option Nat := none
deriving DecidableEq, Repr

/-- Modelled from the spec: the repair manager boundary.  `requests` holds
registered (pending) requests, `queue` holds submitted ones, `nextId` is
the id the next registration receives. -/
structure RepairManager where
  requests : List RepairRequest
  queue : List RepairRequest
  nextId : Nat
deriving DecidableEq, Repr

/-- Modelled from the spec: `register_request` assigns a fresh `request_id`
to the request, records it as pending, and returns the request-with-id. -/
def RepairManager.register (rm : RepairManager) (r : RepairRequest) :
    RepairRequest × RepairManager :=
  let r' := { r with request_id := some rm.nextId }
  (r', { rm with requests := rm.requests ++ [r'], nextId := rm.nextId + 1 })

/-- Modelled from the spec: `purge_subassembly_requests(system_id, part_id,
exclude)` removes every pending request matching both ids whose assigned id
is not excluded. -/
def RepairManager.purge (rm : RepairManager) (sid pid : String)
    (exclude : List (Option Nat)) : RepairManager :=
  { rm with requests := rm.requests.filter fun r =>
      ¬ (r.system_id = sid ∧ r.part_id = pid ∧ r.request_id ∉ exclude) }

/-- Modelled from the spec: `submit_request` enqueues a registered request
for dispatch. -/
def RepairManager.submit (rm : RepairManager) (r : RepairRequest) : RepairManager :=
  { rm with queue := rm.queue ++ [r] }

/-- The state of an upstream node's `System` at the boundary this core
touches: identity, operating level, the `cable_failure` gating signal, and
the interrupted-flags of its owned processes
(`interrupt_all_subassembly_processes` sets them all). -/
structure SystemState where
  name : String
  operating_level : ℚ
  cable_failure : Event
  procs : List Bool
deriving DecidableEq, Repr

/-- The state of an upstream `Cable` at the boundary the cascade touches:
identity, operating level, the `downstream_failure` gating signal and
process interrupted-flags. -/
structure EdgeState where
  id : String
  name : String
  operating_level : ℚ
  downstream_failure : Event
  procs : List Bool
deriving DecidableEq, Repr

/-- The asset under simulation (`Cable.__init__` state): identity derived
from the endpoints, the owning start-node system's identity
(`self.system`), the topology snapshot, the operating level, the three
gating signals, and the interrupted-flags of its own processes. -/
structure CableState where
  id : String
  name : String
  start_node : String
  end_node : String
  system_id : String
  system_name : String
  system_ol : ℚ
  operating_level : ℚ
  servicing : Event
  downstream_failure : Event
  broken : Event
  upstream_nodes : List String
  upstream_cables : List (String × String)
  procs : List Bool
deriving DecidableEq, Repr

/-- The world a cable process acts on: its own state, the lookup maps of
the wind farm (`windfarm.system`, `windfarm.cable`), the environment and
the shared repair manager. -/
structure World where
  cable : CableState
  systems : String → SystemState
  cables : String × String → EdgeState
  env : Env
  rm : RepairManager

/-- The repair request built inside `run_single_failure`: both the system
and the part identity fields are the cable's own id and name. -/
def failureRepairRequest (c : CableState) (f : Failure) : RepairRequest :=
  { system_id := c.id
    system_name := c.name
    part_id := c.id
    part_name := c.name
    severity := f.level
    cable := true
    upstream_turbines := c.upstream_nodes
    upstream_cables := c.upstream_cables }

/-- The repair request built inside `run_single_maintenance`: the system
fields come from the owning start-node system, the part fields are the
cable's, and the severity is 0. -/
def maintenanceRepairRequest (c : CableState) (_m : Maintenance) : RepairRequest :=
  { system_id := c.system_id
    system_name := c.system_name
    part_id := c.id
    part_name := c.name
    severity := 0
    cable := true
    upstream_turbines := c.upstream_nodes
    upstream_cables := c.upstream_cables }

/-- One failure application from `run_single_failure`:
`operating_level *= 1 - failure.operation_reduction`. -/
def applyFailure (level : ℚ) (reduction : ℚ) : ℚ :=
  level * (1 - reduction)

/-- The operating level after a sequence of failure applications starting
from the constructor's initial value `1.0`. -/
def opLevelAfter (rs : List ℚ) : ℚ :=
  rs.foldl applyFailure 1

theorem applyFailure_mem_unitInterval {l r : ℚ} (hl0 : 0 ≤ l) (hl1 : l ≤ 1)
    (hr0 : 0 ≤ r) (hr1 : r ≤ 1) : 0 ≤ applyFailure l r ∧ applyFailure l r ≤ 1 := by
  unfold applyFailure
  constructor
  · exact mul_nonneg hl0 (by linarith)
  · nlinarith

theorem applyFailure_le {l r : ℚ} (hl0 : 0 ≤ l) (hr0 : 0 ≤ r) :
    applyFailure l r ≤ l := by
  unfold applyFailure
  calc l * (1 - r) ≤ l * 1 := by
        apply mul_le_mul_of_nonneg_left (by linarith) hl0
    _ = l := by ring

theorem foldl_applyFailure_bounds (l : ℚ) (rs : List ℚ)
    (hl : 0 ≤ l ∧ l ≤ 1) (h : ∀ r ∈ rs, 0 ≤ r ∧ r ≤ 1) :
    0 ≤ rs.foldl applyFailure l ∧ rs.foldl applyFailure l ≤ 1 := by
  induction rs generalizing l with
  | nil => simpa using hl
  | cons r rs ih =>
    have hr := h r (List.mem_cons_self r rs)
    have hstep := applyFailure_mem_unitInterval hl.1 hl.2 hr.1 hr.2
    exact ih _ hstep (fun x hx => h x (List.mem_cons_of_mem r hx))

/-- Claim C6: starting from `operating_level = 1.0`, every sequence of
failure applications with reductions in `[0,1]` keeps the operating level
inside `[0,1]` after each application, and each application never
increases it. -/
theorem operating_level_unit_interval_and_antitone (rs : List ℚ)
    (h : ∀ r ∈ rs, 0 ≤ r ∧ r ≤ 1) :
    (∀ p q : List ℚ, rs = p ++ q →
        0 ≤ opLevelAfter p ∧ opLevelAfter p ≤ 1) ∧
    (∀ p r q, rs = p ++ r :: q →
        opLevelAfter (p ++ [r]) ≤ opLevelAfter p) := by
  constructor
  · intro p q hpq
    apply foldl_applyFailure_bounds 1 p (by norm_num)
    intro r hr
    exact h r (by rw [hpq]; exact List.mem_append_left q hr)
  · intro p r q hpq
    have hr : 0 ≤ r ∧ r ≤ 1 := by
      apply h
      rw [hpq]
      exact List.mem_append_right p (List.mem_cons_self r q)
    have hp : ∀ x ∈ p, 0 ≤ x ∧ x ≤ 1 := by
      intro x hx
      exact h x (by rw [hpq]; exact List.mem_append_left _ hx)
    have hb := foldl_applyFailure_bounds 1 p (by norm_num) hp
    unfold opLevelAfter
    rw [List.foldl_append]
    exact applyFailure_le hb.1 hr.1

/-- Witness for C6 at the concrete reduction sequence `[0, 1]`. -/
theorem operating_level_unit_interval_witness :
    (∀ r ∈ [(0 : ℚ), 1], 0 ≤ r ∧ r ≤ 1) ∧
    (∀ p q : List ℚ, [(0 : ℚ), 1] = p ++ q →
        0 ≤ opLevelAfter p ∧ opLevelAfter p ≤ 1) ∧
    (∀ p r q, [(0 : ℚ), 1] = p ++ r :: q →
        opLevelAfter (p ++ [r]) ≤ opLevelAfter p) := by
  refine ⟨by decide, ?_⟩
  exact operating_level_unit_interval_and_antitone [(0 : ℚ), 1] (by decide)

/-- Claim C10: failure-generated requests put the cable's own id and name
in both the system and the part fields, maintenance-generated requests put
the owning system's id and name in the system fields; when the owning
system's id differs from the cable id the two kinds of request carry
different system identities. -/
theorem request_identity_fields (c : CableState) (f : Failure) (m : Maintenance)
    (hid : c.system_id ≠ c.id) :
    (failureRepairRequest c f).system_id = c.id ∧
    (failureRepairRequest c f).system_name = c.name ∧
    (failureRepairRequest c f).part_id = c.id ∧
    (failureRepairRequest c f).part_name = c.name ∧
    (maintenanceRepairRequest c m).system_id = c.system_id ∧
    (maintenanceRepairRequest c m).system_name = c.system_name ∧
    (maintenanceRepairRequest c m).part_id = c.id ∧
    (maintenanceRepairRequest c m).part_name = c.name ∧
    (maintenanceRepairRequest c m).system_id ≠ (failureRepairRequest c f).system_id := by
  refine ⟨rfl, rfl, rfl, rfl, rfl, rfl, rfl, rfl, ?_⟩
  simpa [failureRepairRequest, maintenanceRepairRequest] using hid

/-- A concrete cable used by witnesses: one upstream node and one upstream
edge, all signals clear, event counter at 5. -/
def sampleCable : CableState :=
  { id := "cable::t1::t2"
    name := "arraycable1"
    start_node := "t1"
    end_node := "t2"
    system_id := "t1"
    system_name := "turbine 1"
    system_ol := 1
    operating_level := 1
    servicing := ⟨0, true⟩
    downstream_failure := ⟨1, true⟩
    broken := ⟨2, true⟩
    upstream_nodes := ["t2"]
    upstream_cables := [("t2", "t3")]
    procs := [false, false] }

/-- Witness for C10 at `sampleCable` with a concrete failure and
maintenance spec. -/
theorem request_identity_fields_witness :
    sampleCable.system_id ≠ sampleCable.id ∧
    ((failureRepairRequest sampleCable ⟨4, 1, "broken cable"⟩).system_id = sampleCable.id ∧
     (failureRepairRequest sampleCable ⟨4, 1, "broken cable"⟩).system_name = sampleCable.name ∧
     (failureRepairRequest sampleCable ⟨4, 1, "broken cable"⟩).part_id = sampleCable.id ∧
     (failureRepairRequest sampleCable ⟨4, 1, "broken cable"⟩).part_name = sampleCable.name ∧
     (maintenanceRepairRequest sampleCable ⟨100, "inspection"⟩).system_id = sampleCable.system_id ∧
     (maintenanceRepairRequest sampleCable ⟨100, "inspection"⟩).system_name = sampleCable.system_name ∧
     (maintenanceRepairRequest sampleCable ⟨100, "inspection"⟩).part_id = sampleCable.id ∧
     (maintenanceRepairRequest sampleCable ⟨100, "inspection"⟩).part_name = sampleCable.name ∧
     (maintenanceRepairRequest sampleCable ⟨100, "inspection"⟩).system_id ≠
       (failureRepairRequest sampleCable ⟨4, 1, "broken cable"⟩).system_id) :=
  ⟨by decide, request_identity_fields sampleCable ⟨4, 1, "broken cable"⟩
      ⟨100, "inspection"⟩ (by decide)⟩

/-- The suspension points and basic blocks of `run_single_failure`: top of
the outer loop (`draw`), the horizon wait taken when the hazard returns
`None`, the `assert isinstance(...)` line, the inner `while hours_to_next >
0` test, the joint gating-signal wait, and the countdown wait. -/
inductive FailPC
  | draw
  | horizonWait
  | assertCheck
  | innerTest
  | gateWait
  | countdownWait
deriving DecidableEq, Repr

/-- Local variables of the `run_single_failure` generator.  `hours_to_next
= none` models Python `None`; `start = none` models the variable being
unbound (it is only assigned right before the countdown wait). -/
structure FailLocal where
  pc : FailPC
  hours_to_next : Option ℚ
  remainder : ℚ
  start : Option ℚ
deriving DecidableEq, Repr

/-- Python runtime errors the generators can raise. -/
inductive PyError
  | assertionError
  | nameError
  | typeError
deriving DecidableEq, Repr

/-- Inputs delivered to a process at a step: the hazard draw result (only
meaningful at `draw`), a scheduler resumption at a wait point (carrying the
new simulated time and whether it is an interrupt), or an internal step. -/
inductive ProcInput
  | drawResult (h : Option ℚ)
  | resume (now : ℚ) (intr : Bool)
  | tick
deriving DecidableEq, Repr

/-- Initial generator state: about to perform the first hazard draw, with
`start` still unbound. -/
def failInit : FailLocal :=
  { pc := .draw, hours_to_next := none, remainder := 0, start := none }

/-- The log entry `stop_all_upstream_processes` writes for an upstream
node. -/
def cascadeNodeEntry (agent : String) (f : Failure) (reqId : Option Nat)
    (node : String) (sys : SystemState) : LogEntry :=
  { system_id := some node
    system_name := some sys.name
    system_ol := some sys.operating_level
    part_ol := none
    agent := agent
    action := "repair request"
    reason := f.description
    additional := "cable failure shutting off all upstream cables and turbines that are still operating"
    request_id := reqId }

/-- The log entry `stop_all_upstream_processes` writes for an upstream
cable. -/
def cascadeEdgeEntry (agent : String) (f : Failure) (reqId : Option Nat)
    (cbl : EdgeState) : LogEntry :=
  { part_id := some cbl.id
    part_name := some cbl.name
    system_ol := none
    part_ol := some cbl.operating_level
    agent := agent
    action := "repair request"
    reason := f.description
    additional := "cable failure shutting off all upstream cables and turbines that are still operating"
    request_id := reqId }

/-- One iteration of the node loop in `stop_all_upstream_processes`:
interrupt all of the system's subassembly processes, replace its
`cable_failure` signal with a fresh event, and log the action. -/
def stopOneNode (agent : String) (f : Failure) (reqId : Option Nat)
    (w : World) (node : String) : World :=
  let sys := w.systems node
  let (ev, env1) := w.env.newEvent
  let sys' : SystemState :=
    { sys with procs := sys.procs.map fun _ => true, cable_failure := ev }
  let entry := cascadeNodeEntry agent f reqId node sys
  { w with
    systems := fun m => if m = node then sys' else w.systems m
    env := { env1 with log := env1.log ++ [entry] } }

/-- The node loop of `stop_all_upstream_processes`, in list order. -/
def stopNodes (agent : String) (f : Failure) (reqId : Option Nat) :
    List String → World → World
  | [], w => w
  | n :: rest, w => stopNodes agent f reqId rest (stopOneNode agent f reqId w n)

/-- One iteration of the edge loop in `stop_all_upstream_processes`:
interrupt the upstream cable's processes, replace its `downstream_failure`
signal with a fresh event, and log the action. -/
def stopOneEdge (agent : String) (f : Failure) (reqId : Option Nat)
    (w : World) (edge : String × String) : World :=
  let cbl := w.cables edge
  let (ev, env1) := w.env.newEvent
  let cbl' : EdgeState :=
    { cbl with procs := cbl.procs.map fun _ => true, downstream_failure := ev }
  let entry := cascadeEdgeEntry agent f reqId cbl
  { w with
    cables := fun e => if e = edge then cbl' else w.cables e
    env := { env1 with log := env1.log ++ [entry] } }

/-- The edge loop of `stop_all_upstream_processes`, in list order. -/
def stopEdges (agent : String) (f : Failure) (reqId : Option Nat) :
    List (String × String) → World → World
  | [], w => w
  | e :: rest, w => stopEdges agent f reqId rest (stopOneEdge agent f reqId w e)

/-- `stop_all_upstream_processes`: walk `upstream_nodes` first, then
`upstream_cables`, in the orders captured at construction. -/
def stopAllUpstreamProcesses (w : World) (f : Failure) (reqId : Option Nat) : World :=
  let w1 := stopNodes w.cable.name f reqId w.cable.upstream_nodes w
  stopEdges w.cable.name f reqId w.cable.upstream_cables w1

/-- The log entry written by `run_single_failure` after it registers a
repair request. -/
def failureLogEntry (c : CableState) (f : Failure) (ol' : ℚ)
    (reqId : Option Nat) : LogEntry :=
  { system_id := some c.id
    system_name := some c.name
    part_id := some c.id
    part_name := some c.name
    system_ol := some c.system_ol
    part_ol := some ol'
    agent := c.name
    action := "repair request"
    reason := f.description
    additional := "severity level " ++ toString f.level
    request_id := reqId }

/-- The block of `run_single_failure` that runs when the countdown wait
completes: zero the countdown, apply the damage, register the repair
request, and — when the failure is catastrophic — replace `broken` with a
fresh event, purge the asset's other pending requests, interrupt the
asset's own processes and cascade upstream; finally log and submit. -/
def failurePostCountdown (f : Failure) (w : World) (s : FailLocal) :
    World × FailLocal :=
  let c := w.cable
  let ol' := applyFailure c.operating_level f.operation_reduction
  let (req, rm1) := w.rm.register (failureRepairRequest c f)
  let w1 : World := { w with cable := { c with operating_level := ol' }, rm := rm1 }
  let w2 : World :=
    if f.operation_reduction = 1 then
      let (ev, env1) := w1.env.newEvent
      let c1 := { w1.cable with broken := ev }
      let rm2 := rm1.purge c.id c.id [req.request_id]
      let c2 := { c1 with procs := c1.procs.map fun _ => true }
      let wa : World := { w1 with cable := c2, env := env1, rm := rm2 }
      stopAllUpstreamProcesses wa f req.request_id
    else w1
  let w3 : World :=
    { w2 with
      env := { w2.env with
               log := w2.env.log ++ [failureLogEntry c f ol' req.request_id] }
      rm := w2.rm.submit req }
  (w3, { s with hours_to_next := some 0, pc := .innerTest })

/-- The `except simpy.Interrupt` handler shared by the gate wait and the
countdown wait of `run_single_failure`: if `broken` is not triggered the
countdown is zeroed, otherwise the elapsed time since `start` is
subtracted (raising `NameError` when `start` is unbound, `TypeError` when
`hours_to_next` is `None`). -/
def failureInterruptHandler (w : World) (s : FailLocal) (now : ℚ) :
    Except PyError FailLocal :=
  if w.cable.broken.triggered = false then
    .ok { s with hours_to_next := some 0, pc := .innerTest }
  else
    match s.start with
    | none => .error .nameError
    | some st =>
      match s.hours_to_next with
      | none => .error .typeError
      | some h =>
        .ok { s with hours_to_next := some (h - (now - st)), pc := .innerTest }

/-- One small step of the `run_single_failure` generator. -/
def failStep (f : Failure) (w : World) (s : FailLocal) (inp : ProcInput) :
    Except PyError (World × FailLocal) :=
  match s.pc, inp with
  | .draw, .drawResult h =>
    match h with
    | none =>
      .ok (w, { s with hours_to_next := none,
                       remainder := w.env.max_run_time - w.env.now,
                       pc := .horizonWait })
    | some v => .ok (w, { s with hours_to_next := some v, pc := .assertCheck })
  | .horizonWait, .resume now intr =>
    let w' : World := { w with env := { w.env with now := now } }
    if intr then
      .ok (w', { s with remainder := s.remainder - now, pc := .assertCheck })
    else
      .ok (w', { s with pc := .assertCheck })
  | .assertCheck, _ =>
    match s.hours_to_next with
    | none => .error .assertionError
    | some _ => .ok (w, { s with pc := .innerTest })
  | .innerTest, _ =>
    match s.hours_to_next with
    | none => .error .typeError
    | some h =>
      if 0 < h then .ok (w, { s with pc := .gateWait })
      else .ok (w, { s with pc := .draw })
  | .gateWait, .resume now intr =>
    let w' : World := { w with env := { w.env with now := now } }
    if intr then (failureInterruptHandler w' s now).map fun s' => (w', s')
    else .ok (w', { s with start := some now, pc := .countdownWait })
  | .countdownWait, .resume now intr =>
    let w' : World := { w with env := { w.env with now := now } }
    if intr then (failureInterruptHandler w' s now).map fun s' => (w', s')
    else .ok (failurePostCountdown f w' s)
  | _, _ => .ok (w, s)

/-- Run the failure generator on a list of inputs, stopping at the first
uncaught Python error. -/
def failRun (f : Failure) : List ProcInput → World → FailLocal →
    Except PyError (World × FailLocal)
  | [], w, s => .ok (w, s)
  | i :: is, w, s =>
    match failStep f w s i with
    | .error e => .error e
    | .ok (w', s') => failRun f is w' s'

/-- A signal freshly blocked during an operation that started with event
counter `c0`: it is untriggered and its id was drawn at or after `c0`, so
it is distinct from every event that existed before the operation. -/
def FreshSince (c0 : Nat) (e : Event) : Prop :=
  e.triggered = false ∧ c0 ≤ e.id

instance (c0 : Nat) (e : Event) : Decidable (FreshSince c0 e) := by
  unfold FreshSince; infer_instance

/-- An upstream system hit by the cascade: `cable_failure` freshly blocked
and every owned process interrupted. -/
def GoodSys (c0 : Nat) (sys : SystemState) : Prop :=
  FreshSince c0 sys.cable_failure ∧ ∀ b ∈ sys.procs, b = true

instance (c0 : Nat) (sys : SystemState) : Decidable (GoodSys c0 sys) := by
  unfold GoodSys; infer_instance

/-- An upstream cable hit by the cascade: `downstream_failure` freshly
blocked and every owned process interrupted. -/
def GoodEdge (c0 : Nat) (cbl : EdgeState) : Prop :=
  FreshSince c0 cbl.downstream_failure ∧ ∀ b ∈ cbl.procs, b = true

instance (c0 : Nat) (cbl : EdgeState) : Decidable (GoodEdge c0 cbl) := by
  unfold GoodEdge; infer_instance

theorem stopOneNode_counter (a : String) (f : Failure) (r : Option Nat)
    (w : World) (n : String) :
    (stopOneNode a f r w n).env.counter = w.env.counter + 1 := rfl

theorem stopOneNode_cable (a : String) (f : Failure) (r : Option Nat)
    (w : World) (n : String) : (stopOneNode a f r w n).cable = w.cable := rfl

theorem stopOneNode_rm (a : String) (f : Failure) (r : Option Nat)
    (w : World) (n : String) : (stopOneNode a f r w n).rm = w.rm := rfl

theorem stopOneNode_cables (a : String) (f : Failure) (r : Option Nat)
    (w : World) (n : String) : (stopOneNode a f r w n).cables = w.cables := rfl

theorem stopOneNode_log (a : String) (f : Failure) (r : Option Nat)
    (w : World) (n : String) :
    (stopOneNode a f r w n).env.log =
      w.env.log ++ [cascadeNodeEntry a f r n (w.systems n)] := rfl

theorem stopOneNode_systems_name (a : String) (f : Failure) (r : Option Nat)
    (w : World) (n m : String) :
    ((stopOneNode a f r w n).systems m).name = (w.systems m).name := by
  by_cases h : m = n <;> simp [stopOneNode, h]

theorem stopOneNode_systems_ol (a : String) (f : Failure) (r : Option Nat)
    (w : World) (n m : String) :
    ((stopOneNode a f r w n).systems m).operating_level =
      (w.systems m).operating_level := by
  by_cases h : m = n <;> simp [stopOneNode, h]

theorem cascadeNodeEntry_congr (a : String) (f : Failure) (r : Option Nat)
    (n : String) {s1 s2 : SystemState} (h1 : s1.name = s2.name)
    (h2 : s1.operating_level = s2.operating_level) :
    cascadeNodeEntry a f r n s1 = cascadeNodeEntry a f r n s2 := by
  simp [cascadeNodeEntry, h1, h2]

theorem stopOneNode_systems_ne (a : String) (f : Failure) (r : Option Nat)
    (w : World) (n m : String) (h : m ≠ n) :
    (stopOneNode a f r w n).systems m = w.systems m := by
  simp [stopOneNode, h]

theorem stopOneNode_systems_eq (a : String) (f : Failure) (r : Option Nat)
    (w : World) (n : String) :
    (stopOneNode a f r w n).systems n =
      { w.systems n with
        procs := (w.systems n).procs.map fun _ => true,
        cable_failure := ⟨w.env.counter, false⟩ } := by
  simp [stopOneNode, Env.newEvent]

theorem stopOneNode_goodSys (a : String) (f : Failure) (r : Option Nat)
    (w : World) (n m : String) {c0 : Nat} (hc : c0 ≤ w.env.counter)
    (h : GoodSys c0 (w.systems m) ∨ m = n) :
    GoodSys c0 ((stopOneNode a f r w n).systems m) := by
  by_cases hm : m = n
  · subst hm
    rw [stopOneNode_systems_eq]
    refine ⟨⟨rfl, hc⟩, ?_⟩
    intro b hb
    simp only [List.mem_map] at hb
    obtain ⟨x, -, hx⟩ := hb
    exact hx.symm
  · rw [stopOneNode_systems_ne a f r w n m hm]
    rcases h with h | h
    · exact h
    · exact absurd h hm

theorem stopNodes_counter_le (a : String) (f : Failure) (r : Option Nat)
    (l : List String) (w : World) :
    w.env.counter ≤ (stopNodes a f r l w).env.counter := by
  induction l generalizing w with
  | nil => exact le_refl _
  | cons n rest ih =>
    calc w.env.counter ≤ (stopOneNode a f r w n).env.counter := by
          rw [stopOneNode_counter]; exact Nat.le_succ _
      _ ≤ _ := ih _

theorem stopNodes_cable (a : String) (f : Failure) (r : Option Nat)
    (l : List String) (w : World) :
    (stopNodes a f r l w).cable = w.cable := by
  induction l generalizing w with
  | nil => rfl
  | cons n rest ih => rw [stopNodes, ih, stopOneNode_cable]

theorem stopNodes_rm (a : String) (f : Failure) (r : Option Nat)
    (l : List String) (w : World) :
    (stopNodes a f r l w).rm = w.rm := by
  induction l generalizing w with
  | nil => rfl
  | cons n rest ih => rw [stopNodes, ih, stopOneNode_rm]

theorem stopNodes_cables (a : String) (f : Failure) (r : Option Nat)
    (l : List String) (w : World) :
    (stopNodes a f r l w).cables = w.cables := by
  induction l generalizing w with
  | nil => rfl
  | cons n rest ih => rw [stopNodes, ih, stopOneNode_cables]

theorem stopNodes_goodSys (a : String) (f : Failure) (r : Option Nat)
    (l : List String) (w : World) (m : String) {c0 : Nat}
    (hc : c0 ≤ w.env.counter) (h : GoodSys c0 (w.systems m) ∨ m ∈ l) :
    GoodSys c0 ((stopNodes a f r l w).systems m) := by
  induction l generalizing w with
  | nil =>
    rcases h with h | h
    · exact h
    · simp at h
  | cons n rest ih =>
    rw [stopNodes]
    have hc' : c0 ≤ (stopOneNode a f r w n).env.counter := by
      rw [stopOneNode_counter]; exact le_trans hc (Nat.le_succ _)
    rcases h with h | h
    · exact ih _ hc' (Or.inl (stopOneNode_goodSys a f r w n m hc (Or.inl h)))
    · rcases List.mem_cons.mp h with h | h
      · exact ih _ hc' (Or.inl (stopOneNode_goodSys a f r w n m hc (Or.inr h)))
      · exact ih _ hc' (Or.inr h)

theorem stopNodes_log (a : String) (f : Failure) (r : Option Nat)
    (l : List String) (w : World) :
    (stopNodes a f r l w).env.log =
      w.env.log ++ l.map (fun n => cascadeNodeEntry a f r n (w.systems n)) := by
  induction l generalizing w with
  | nil => simp [stopNodes]
  | cons n rest ih =>
    rw [stopNodes, ih]
    rw [stopOneNode_log]
    rw [List.map_cons, List.append_assoc]
    congr 1
    rw [List.singleton_append]
    congr 1
    apply List.map_congr_left
    intro m _
    exact cascadeNodeEntry_congr a f r m (stopOneNode_systems_name a f r w n m)
      (stopOneNode_systems_ol a f r w n m)

theorem stopOneEdge_counter (a : String) (f : Failure) (r : Option Nat)
    (w : World) (e : String × String) :
    (stopOneEdge a f r w e).env.counter = w.env.counter + 1 := rfl

theorem stopOneEdge_cable (a : String) (f : Failure) (r : Option Nat)
    (w : World) (e : String × String) : (stopOneEdge a f r w e).cable = w.cable := rfl

theorem stopOneEdge_rm (a : String) (f : Failure) (r : Option Nat)
    (w : World) (e : String × String) : (stopOneEdge a f r w e).rm = w.rm := rfl

theorem stopOneEdge_systems (a : String) (f : Failure) (r : Option Nat)
    (w : World) (e : String × String) :
    (stopOneEdge a f r w e).systems = w.systems := rfl

theorem stopOneEdge_log (a : String) (f : Failure) (r : Option Nat)
    (w : World) (e : String × String) :
    (stopOneEdge a f r w e).env.log =
      w.env.log ++ [cascadeEdgeEntry a f r (w.cables e)] := rfl

theorem stopOneEdge_cables_id (a : String) (f : Failure) (r : Option Nat)
    (w : World) (e d : String × String) :
    ((stopOneEdge a f r w e).cables d).id = (w.cables d).id := by
  by_cases h : d = e <;> simp [stopOneEdge, h]

theorem stopOneEdge_cables_name (a : String) (f : Failure) (r : Option Nat)
    (w : World) (e d : String × String) :
    ((stopOneEdge a f r w e).cables d).name = (w.cables d).name := by
  by_cases h : d = e <;> simp [stopOneEdge, h]

theorem stopOneEdge_cables_ol (a : String) (f : Failure) (r : Option Nat)
    (w : World) (e d : String × String) :
    ((stopOneEdge a f r w e).cables d).operating_level =
      (w.cables d).operating_level := by
  by_cases h : d = e <;> simp [stopOneEdge, h]

theorem cascadeEdgeEntry_congr (a : String) (f : Failure) (r : Option Nat)
    {c1 c2 : EdgeState} (h0 : c1.id = c2.id) (h1 : c1.name = c2.name)
    (h2 : c1.operating_level = c2.operating_level) :
    cascadeEdgeEntry a f r c1 = cascadeEdgeEntry a f r c2 := by
  simp [cascadeEdgeEntry, h0, h1, h2]

theorem stopOneEdge_cables_ne (a : String) (f : Failure) (r : Option Nat)
    (w : World) (e d : String × String) (h : d ≠ e) :
    (stopOneEdge a f r w e).cables d = w.cables d := by
  simp [stopOneEdge, h]

theorem stopOneEdge_cables_eq (a : String) (f : Failure) (r : Option Nat)
    (w : World) (e : String × String) :
    (stopOneEdge a f r w e).cables e =
      { w.cables e with
        procs := (w.cables e).procs.map fun _ => true,
        downstream_failure := ⟨w.env.counter, false⟩ } := by
  simp [stopOneEdge, Env.newEvent]

theorem stopOneEdge_goodEdge (a : String) (f : Failure) (r : Option Nat)
    (w : World) (e d : String × String) {c0 : Nat} (hc : c0 ≤ w.env.counter)
    (h : GoodEdge c0 (w.cables d) ∨ d = e) :
    GoodEdge c0 ((stopOneEdge a f r w e).cables d) := by
  by_cases hd : d = e
  · subst hd
    rw [stopOneEdge_cables_eq]
    refine ⟨⟨rfl, hc⟩, ?_⟩
    intro b hb
    simp only [List.mem_map] at hb
    obtain ⟨x, -, hx⟩ := hb
    exact hx.symm
  · rw [stopOneEdge_cables_ne a f r w e d hd]
    rcases h with h | h
    · exact h
    · exact absurd h hd

theorem stopEdges_cable (a : String) (f : Failure) (r : Option Nat)
    (l : List (String × String)) (w : World) :
    (stopEdges a f r l w).cable = w.cable := by
  induction l generalizing w with
  | nil => rfl
  | cons e rest ih => rw [stopEdges, ih, stopOneEdge_cable]

theorem stopEdges_rm (a : String) (f : Failure) (r : Option Nat)
    (l : List (String × String)) (w : World) :
    (stopEdges a f r l w).rm = w.rm := by
  induction l generalizing w with
  | nil => rfl
  | cons e rest ih => rw [stopEdges, ih, stopOneEdge_rm]

theorem stopEdges_systems (a : String) (f : Failure) (r : Option Nat)
    (l : List (String × String)) (w : World) :
    (stopEdges a f r l w).systems = w.systems := by
  induction l generalizing w with
  | nil => rfl
  | cons e rest ih => rw [stopEdges, ih, stopOneEdge_systems]

theorem stopEdges_goodEdge (a : String) (f : Failure) (r : Option Nat)
    (l : List (String × String)) (w : World) (d : String × String) {c0 : Nat}
    (hc : c0 ≤ w.env.counter) (h : GoodEdge c0 (w.cables d) ∨ d ∈ l) :
    GoodEdge c0 ((stopEdges a f r l w).cables d) := by
  induction l generalizing w with
  | nil =>
    rcases h with h | h
    · exact h
    · simp at h
  | cons e rest ih =>
    rw [stopEdges]
    have hc' : c0 ≤ (stopOneEdge a f r w e).env.counter := by
      rw [stopOneEdge_counter]; exact le_trans hc (Nat.le_succ _)
    rcases h with h | h
    · exact ih _ hc' (Or.inl (stopOneEdge_goodEdge a f r w e d hc (Or.inl h)))
    · rcases List.mem_cons.mp h with h | h
      · exact ih _ hc' (Or.inl (stopOneEdge_goodEdge a f r w e d hc (Or.inr h)))
      · exact ih _ hc' (Or.inr h)

theorem stopEdges_log (a : String) (f : Failure) (r : Option Nat)
    (l : List (String × String)) (w : World) :
    (stopEdges a f r l w).env.log =
      w.env.log ++ l.map (fun e => cascadeEdgeEntry a f r (w.cables e)) := by
  induction l generalizing w with
  | nil => simp [stopEdges]
  | cons e rest ih =>
    rw [stopEdges, ih]
    rw [stopOneEdge_log]
    rw [List.map_cons, List.append_assoc]
    congr 1
    rw [List.singleton_append]
    congr 1
    apply List.map_congr_left
    intro d _
    exact cascadeEdgeEntry_congr a f r (stopOneEdge_cables_id a f r w e d)
      (stopOneEdge_cables_name a f r w e d) (stopOneEdge_cables_ol a f r w e d)

theorem stopAllUpstream_cable (w : World) (f : Failure) (rid : Option Nat) :
    (stopAllUpstreamProcesses w f rid).cable = w.cable := by
  unfold stopAllUpstreamProcesses
  rw [stopEdges_cable, stopNodes_cable]

theorem stopAllUpstream_rm (w : World) (f : Failure) (rid : Option Nat) :
    (stopAllUpstreamProcesses w f rid).rm = w.rm := by
  unfold stopAllUpstreamProcesses
  rw [stopEdges_rm, stopNodes_rm]

theorem stopAllUpstream_goodSys (w : World) (f : Failure) (rid : Option Nat)
    {c0 : Nat} (hc : c0 ≤ w.env.counter) {n : String}
    (hn : n ∈ w.cable.upstream_nodes) :
    GoodSys c0 ((stopAllUpstreamProcesses w f rid).systems n) := by
  unfold stopAllUpstreamProcesses
  rw [stopEdges_systems]
  exact stopNodes_goodSys _ _ _ _ _ _ hc (Or.inr hn)

theorem stopAllUpstream_goodEdge (w : World) (f : Failure) (rid : Option Nat)
    {c0 : Nat} (hc : c0 ≤ w.env.counter) {e : String × String}
    (he : e ∈ w.cable.upstream_cables) :
    GoodEdge c0 ((stopAllUpstreamProcesses w f rid).cables e) := by
  unfold stopAllUpstreamProcesses
  apply stopEdges_goodEdge
  · exact le_trans hc (stopNodes_counter_le _ _ _ _ _)
  · exact Or.inr he

theorem stopAllUpstream_log (w : World) (f : Failure) (rid : Option Nat) :
    (stopAllUpstreamProcesses w f rid).env.log =
      w.env.log
        ++ w.cable.upstream_nodes.map
            (fun n => cascadeNodeEntry w.cable.name f rid n (w.systems n))
        ++ w.cable.upstream_cables.map
            (fun e => cascadeEdgeEntry w.cable.name f rid (w.cables e)) := by
  unfold stopAllUpstreamProcesses
  rw [stopEdges_log, stopNodes_log, stopNodes_cables, List.append_assoc]

/-- Claim C1: when a countdown completes for a failure with
`operation_reduction = 1` on asset A, the asset's `broken` signal is
replaced by a freshly blocked one, every pending repair request for A other
than the one just registered is purged (the new one stays pending), every
node in `upstream_nodes` and every edge in `upstream_cables` gets its
processes interrupted and its downstream-failure gating signal replaced by
a freshly blocked one, and the cascade log shows the nodes (in their DFS
order) first, then the edges (in theirs). -/
theorem catastrophic_failure_cascade (f : Failure) (w : World) (s : FailLocal)
    (h1 : f.operation_reduction = 1) :
    FreshSince w.env.counter (failurePostCountdown f w s).1.cable.broken ∧
    (∀ q ∈ (failurePostCountdown f w s).1.rm.requests,
        q.system_id = w.cable.id → q.part_id = w.cable.id →
        q.request_id = some w.rm.nextId) ∧
    ({ failureRepairRequest w.cable f with request_id := some w.rm.nextId } ∈
        (failurePostCountdown f w s).1.rm.requests) ∧
    (∀ n ∈ w.cable.upstream_nodes,
        GoodSys w.env.counter ((failurePostCountdown f w s).1.systems n)) ∧
    (∀ e ∈ w.cable.upstream_cables,
        GoodEdge w.env.counter ((failurePostCountdown f w s).1.cables e)) ∧
    (failurePostCountdown f w s).1.env.log =
      w.env.log
        ++ w.cable.upstream_nodes.map
            (fun n => cascadeNodeEntry w.cable.name f (some w.rm.nextId) n (w.systems n))
        ++ w.cable.upstream_cables.map
            (fun e => cascadeEdgeEntry w.cable.name f (some w.rm.nextId) (w.cables e))
        ++ [failureLogEntry w.cable f
              (applyFailure w.cable.operating_level f.operation_reduction)
              (some w.rm.nextId)] := by
  simp only [failurePostCountdown, RepairManager.register, Env.newEvent, h1, if_true,
    RepairManager.submit]
  refine ⟨?_, ?_, ?_, ?_, ?_, ?_⟩
  · rw [stopAllUpstream_cable]
    exact ⟨rfl, Nat.le_refl _⟩
  · intro q hq hsys hpart
    rw [stopAllUpstream_rm] at hq
    simp only [RepairManager.purge, List.mem_filter, decide_eq_true_eq] at hq
    rcases hq with ⟨-, hkeep⟩
    by_contra hne
    exact hkeep ⟨hsys, hpart, by simpa using hne⟩
  · rw [stopAllUpstream_rm]
    simp only [RepairManager.purge, List.mem_filter, decide_eq_true_eq]
    refine ⟨List.mem_append_right _ (List.mem_singleton.mpr rfl), ?_⟩
    intro hbad
    exact hbad.2.2 (List.mem_singleton.mpr rfl)
  · intro n hn
    exact stopAllUpstream_goodSys _ f _ (Nat.le_succ _) hn
  · intro e he
    exact stopAllUpstream_goodEdge _ f _ (Nat.le_succ _) he
  · rw [stopAllUpstream_log]

/-- A concrete world for witnesses: `sampleCable` with one upstream node
and one upstream edge, one stale pending request for the cable, event
counter at 5 and the clock at 10. -/
def sampleWorld : World :=
  { cable := sampleCable
    systems := fun n =>
      { name := "system " ++ n
        operating_level := 1
        cable_failure := ⟨3, true⟩
        procs := [false, false] }
    cables := fun e =>
      { id := "cable::" ++ e.1 ++ "::" ++ e.2
        name := "cable " ++ e.1
        operating_level := 1
        downstream_failure := ⟨4, true⟩
        procs := [false] }
    env := { now := 10, max_run_time := 8760, counter := 5, log := [] }
    rm :=
      { requests := [{ system_id := "cable::t1::t2", system_name := "arraycable1"
                       part_id := "cable::t1::t2", part_name := "arraycable1"
                       severity := 1, cable := true, upstream_turbines := ["t2"]
                       upstream_cables := [("t2", "t3")], request_id := some 0 }]
        queue := []
        nextId := 1 } }

/-- A concrete catastrophic failure spec used by witnesses. -/
def sampleFailure : Failure := { level := 4, operation_reduction := 1, description := "cable replacement" }

/-- Witness for C1: `catastrophic_failure_cascade` applied to
`sampleWorld` and `sampleFailure`. -/
theorem catastrophic_failure_cascade_witness :
    sampleFailure.operation_reduction = 1 ∧
    (FreshSince sampleWorld.env.counter
        (failurePostCountdown sampleFailure sampleWorld failInit).1.cable.broken ∧
      (∀ q ∈ (failurePostCountdown sampleFailure sampleWorld failInit).1.rm.requests,
          q.system_id = sampleWorld.cable.id → q.part_id = sampleWorld.cable.id →
          q.request_id = some sampleWorld.rm.nextId) ∧
      ({ failureRepairRequest sampleWorld.cable sampleFailure with
          request_id := some sampleWorld.rm.nextId } ∈
          (failurePostCountdown sampleFailure sampleWorld failInit).1.rm.requests) ∧
      (∀ n ∈ sampleWorld.cable.upstream_nodes,
          GoodSys sampleWorld.env.counter
            ((failurePostCountdown sampleFailure sampleWorld failInit).1.systems n)) ∧
      (∀ e ∈ sampleWorld.cable.upstream_cables,
          GoodEdge sampleWorld.env.counter
            ((failurePostCountdown sampleFailure sampleWorld failInit).1.cables e)) ∧
      (failurePostCountdown sampleFailure sampleWorld failInit).1.env.log =
        sampleWorld.env.log
          ++ sampleWorld.cable.upstream_nodes.map
              (fun n => cascadeNodeEntry sampleWorld.cable.name sampleFailure
                (some sampleWorld.rm.nextId) n (sampleWorld.systems n))
          ++ sampleWorld.cable.upstream_cables.map
              (fun e => cascadeEdgeEntry sampleWorld.cable.name sampleFailure
                (some sampleWorld.rm.nextId) (sampleWorld.cables e))
          ++ [failureLogEntry sampleWorld.cable sampleFailure
                (applyFailure sampleWorld.cable.operating_level
                  sampleFailure.operation_reduction)
                (some sampleWorld.rm.nextId)]) :=
  ⟨rfl, catastrophic_failure_cascade sampleFailure sampleWorld failInit rfl⟩

/-- Claim C2: an interrupt delivered during a Failure Timer countdown
either resumes with the elapsed time subtracted (broken clear: remaining
plus elapsed equals the drawn duration) or discards the countdown and
forces a fresh hazard draw on the next outer-loop iteration (broken
blocked). -/
theorem failure_countdown_interrupt_semantics (f : Failure) (w : World)
    (s : FailLocal) (h st now : ℚ) (hpc : s.pc = .countdownWait)
    (hh : s.hours_to_next = some h) (hst : s.start = some st) :
    (w.cable.broken.triggered = true →
      failStep f w s (.resume now true) =
        .ok ({ w with env := { w.env with now := now } },
             { s with hours_to_next := some (h - (now - st)), pc := .innerTest }) ∧
      (h - (now - st)) + (now - st) = h) ∧
    (w.cable.broken.triggered = false →
      failStep f w s (.resume now true) =
        .ok ({ w with env := { w.env with now := now } },
             { s with hours_to_next := some 0, pc := .innerTest }) ∧
      failStep f { w with env := { w.env with now := now } }
          { s with hours_to_next := some 0, pc := .innerTest } .tick =
        .ok ({ w with env := { w.env with now := now } },
             { s with hours_to_next := some 0, pc := .draw })) := by
  obtain ⟨pc, hn, rem, sta⟩ := s
  simp only at hpc hh hst
  subst hpc hh hst
  constructor
  · intro hb
    constructor
    · simp [failStep, failureInterruptHandler, hb, Except.map]
    · ring
  · intro hb
    constructor
    · simp [failStep, failureInterruptHandler, hb, Except.map]
    · simp [failStep]

/-- Witness for C2: a countdown of 10 hours started at t = 2, interrupted
at t = 5 with `broken` clear, resumes with 7 hours remaining; with `broken`
blocked it is zeroed and the next iteration redraws. -/
theorem failure_countdown_interrupt_semantics_witness :
    (sampleWorld.cable.broken.triggered = true →
      failStep sampleFailure sampleWorld
          { pc := .countdownWait, hours_to_next := some 10, remainder := 0,
            start := some 2 } (.resume 5 true) =
        .ok ({ sampleWorld with
                env := { sampleWorld.env with now := 5 } },
             { pc := .innerTest, hours_to_next := some ((10 : ℚ) - (5 - 2)),
               remainder := 0, start := some 2 }) ∧
      ((10 : ℚ) - (5 - 2)) + (5 - 2) = 10) ∧
    (sampleWorld.cable.broken.triggered = false →
      failStep sampleFailure sampleWorld
          { pc := .countdownWait, hours_to_next := some 10, remainder := 0,
            start := some 2 } (.resume 5 true) =
        .ok ({ sampleWorld with
                env := { sampleWorld.env with now := 5 } },
             { pc := .innerTest, hours_to_next := some 0, remainder := 0,
               start := some 2 }) ∧
      failStep sampleFailure { sampleWorld with
          env := { sampleWorld.env with now := 5 } }
          { pc := .innerTest, hours_to_next := some 0, remainder := 0,
            start := some 2 } .tick =
        .ok ({ sampleWorld with
                env := { sampleWorld.env with now := 5 } },
             { pc := .draw, hours_to_next := some 0, remainder := 0,
               start := some 2 })) :=
  failure_countdown_interrupt_semantics sampleFailure sampleWorld
    { pc := .countdownWait, hours_to_next := some 10, remainder := 0, start := some 2 }
    10 2 5 rfl rfl rfl

/-- Claim C3 evaluated at a failing input: when the hazard returns `None`,
the generator falls through to `assert isinstance(hours_to_next, (int,
float))` with `hours_to_next` still `None` and raises `AssertionError`
both when the horizon wait is interrupted and when it completes — it does
not continue to a fresh draw. -/
theorem none_draw_raises_assertion :
    failRun sampleFailure [.drawResult none, .resume 20 true, .tick]
        sampleWorld failInit = .error .assertionError ∧
    failRun sampleFailure [.drawResult none, .resume 8760 false, .tick]
        sampleWorld failInit = .error .assertionError :=
  ⟨rfl, rfl⟩

/-- The generator state sitting at the top of the outer loop with a
previously drawn countdown of zero hours. -/
def zeroDrawState : FailLocal :=
  { pc := .draw, hours_to_next := some 0, remainder := 0, start := none }

/-- `n` rounds of the zero-duration redraw cycle: draw, assert, inner
test. -/
def zeroDrawInputs : Nat → List ProcInput
  | 0 => []
  | n + 1 => .drawResult (some 0) :: .tick :: .tick :: zeroDrawInputs n

/-- Claim C4 evaluated at a failing input: a hazard that keeps returning a
non-positive duration makes the Failure Timer loop indefinitely — any
number of redraw cycles leaves the world untouched (no clock advance, no
log, no request) and raises no error, instead of failing fast. -/
theorem zero_draw_loops_silently (f : Failure) (w : World) (n : Nat) :
    failRun f (zeroDrawInputs n) w zeroDrawState = .ok (w, zeroDrawState) ∧
    failRun f (zeroDrawInputs (n + 1)) w failInit = .ok (w, zeroDrawState) := by
  have cycle : ∀ (m : Nat) (w' : World),
      failRun f (zeroDrawInputs m) w' zeroDrawState = .ok (w', zeroDrawState) := by
    intro m
    induction m with
    | zero => intro w'; rfl
    | succ k ih =>
      intro w'
      have hstep : failRun f (zeroDrawInputs (k + 1)) w' zeroDrawState =
          failRun f (zeroDrawInputs k) w' zeroDrawState := rfl
      rw [hstep]
      exact ih w'
  refine ⟨cycle n w, ?_⟩
  have hstep : failRun f (zeroDrawInputs (n + 1)) w failInit =
      failRun f (zeroDrawInputs n) w zeroDrawState := rfl
  rw [hstep]
  exact cycle n w

/-- Claim C8 evaluated at failing inputs: an interrupt delivered at the
joint gating-signal wait on the first loop iteration (with `broken` clear)
raises `NameError` because `start` is still unbound, and an interrupt at
the horizon wait after a `None` draw surfaces an `AssertionError`; both
escape the generator instead of being handled as control flow. -/
theorem interrupt_surfaces_uncaught_errors :
    failRun sampleFailure [.drawResult (some 10), .tick, .tick, .resume 10 true]
        sampleWorld failInit = .error .nameError ∧
    failRun sampleFailure [.drawResult none, .resume 30 true, .tick]
        sampleWorld failInit = .error .assertionError :=
  ⟨rfl, rfl⟩

/-- The suspension points and basic blocks of `run_single_maintenance`:
top of the outer loop (where `hours_to_next = maintenance.frequency` is
assigned), the horizon wait taken when the frequency is zero, the inner
`while hours_to_next > 0` test, the joint gating-signal wait and the
countdown wait. -/
inductive MaintPC
  | top
  | horizonWait
  | innerTest
  | gateWait
  | countdownWait
deriving DecidableEq, Repr

/-- Local variables of the `run_single_maintenance` generator;
`hours_to_next` is always numeric here, `start = none` models the variable
being unbound until the first countdown. -/
structure MaintLocal where
  pc : MaintPC
  hours_to_next : ℚ
  remainder : ℚ
  start : Option ℚ
deriving DecidableEq, Repr

/-- Initial maintenance generator state. -/
def maintInit : MaintLocal :=
  { pc := .top, hours_to_next := 0, remainder := 0, start := none }

/-- The log entry written by `run_single_maintenance` after registering a
maintenance request. -/
def maintenanceLogEntry (c : CableState) (m : Maintenance)
    (reqId : Option Nat) : LogEntry :=
  { system_id := some c.system_id
    system_name := some c.system_name
    part_id := some c.id
    part_name := some c.name
    system_ol := some c.system_ol
    part_ol := some c.operating_level
    agent := c.name
    action := "maintenance request"
    reason := m.description
    additional := "request"
    request_id := reqId }

/-- The block of `run_single_maintenance` run when the countdown
completes: zero the countdown, register the maintenance request, log it
and submit it. -/
def maintPostCountdown (m : Maintenance) (w : World) (s : MaintLocal) :
    World × MaintLocal :=
  let c := w.cable
  let (req, rm1) := w.rm.register (maintenanceRepairRequest c m)
  let w' : World :=
    { w with
      env := { w.env with log := w.env.log ++ [maintenanceLogEntry c m req.request_id] }
      rm := rm1.submit req }
  (w', { s with hours_to_next := 0, pc := .innerTest })

/-- The `except simpy.Interrupt` handler of `run_single_maintenance`,
identical in structure to the failure one: `broken` untriggered zeroes the
countdown, otherwise the elapsed time since `start` is subtracted
(`NameError` when `start` is unbound). -/
def maintInterruptHandler (w : World) (s : MaintLocal) (now : ℚ) :
    Except PyError MaintLocal :=
  if w.cable.broken.triggered = false then
    .ok { s with hours_to_next := 0, pc := .innerTest }
  else
    match s.start with
    | none => .error .nameError
    | some st =>
      .ok { s with hours_to_next := s.hours_to_next - (now - st), pc := .innerTest }

/-- One small step of the `run_single_maintenance` generator. -/
def maintStep (m : Maintenance) (w : World) (s : MaintLocal) (inp : ProcInput) :
    Except PyError (World × MaintLocal) :=
  match s.pc, inp with
  | .top, _ =>
    if m.frequency = 0 then
      .ok (w, { s with hours_to_next := m.frequency,
                       remainder := w.env.max_run_time - w.env.now,
                       pc := .horizonWait })
    else
      .ok (w, { s with hours_to_next := m.frequency, pc := .innerTest })
  | .horizonWait, .resume now intr =>
    let w' : World := { w with env := { w.env with now := now } }
    if intr then
      .ok (w', { s with remainder := s.remainder - now, pc := .innerTest })
    else
      .ok (w', { s with pc := .innerTest })
  | .innerTest, _ =>
    if 0 < s.hours_to_next then .ok (w, { s with pc := .gateWait })
    else .ok (w, { s with pc := .top })
  | .gateWait, .resume now intr =>
    let w' : World := { w with env := { w.env with now := now } }
    if intr then (maintInterruptHandler w' s now).map fun s' => (w', s')
    else .ok (w', { s with start := some now, pc := .countdownWait })
  | .countdownWait, .resume now intr =>
    let w' : World := { w with env := { w.env with now := now } }
    if intr then (maintInterruptHandler w' s now).map fun s' => (w', s')
    else .ok (maintPostCountdown m w' s)
  | _, _ => .ok (w, s)

/-- Run the maintenance generator on a list of inputs. -/
def maintRun (m : Maintenance) : List ProcInput → World → MaintLocal →
    Except PyError (World × MaintLocal)
  | [], w, s => .ok (w, s)
  | i :: is, w, s =>
    match maintStep m w s i with
    | .error e => .error e
    | .ok (w', s') => maintRun m is w' s'

/-- A world with a 500-hour horizon, an empty repair manager and the clock
at zero, used for the frequency-zero maintenance scenario. -/
def c5World : World :=
  { sampleWorld with
    env := { now := 0, max_run_time := 500, counter := 5, log := [] }
    rm := { requests := [], queue := [], nextId := 0 } }

/-- Counterexample to claim C5: a `frequency = 0` maintenance process on a
500-hour horizon, never interrupted, reaches the horizon and loops without
ever building or submitting a request — the repair manager's queue and
pending list stay empty, not one request at t = 500. -/
theorem freq_zero_no_request_at_horizon :
    maintRun ⟨0, "annual service"⟩
        [.tick, .resume 500 false, .tick, .tick, .resume 500 false, .tick]
        c5World maintInit =
      .ok ({ c5World with env := { c5World.env with now := 500 } },
           { pc := .top, hours_to_next := 0, remainder := (500 : ℚ) - 500,
             start := none }) ∧
    ({ c5World with env := { c5World.env with now := 500 } } : World).rm.queue = [] ∧
    ({ c5World with env := { c5World.env with now := 500 } } : World).rm.requests = [] :=
  ⟨rfl, rfl, rfl⟩

/-- A maintenance generator state in which a `frequency = 0` process can
ever be: countdown zero and control in the outer loop, the horizon wait or
the inner test. -/
def MaintIdle (s : MaintLocal) : Prop :=
  s.hours_to_next = 0 ∧ (s.pc = .top ∨ s.pc = .horizonWait ∨ s.pc = .innerTest)

theorem maint_freq_zero_step (m : Maintenance) (hm : m.frequency = 0)
    (w : World) (s : MaintLocal) (inp : ProcInput) (hs : MaintIdle s) :
    ∃ w' s', maintStep m w s inp = .ok (w', s') ∧ MaintIdle s' ∧
      w'.rm = w.rm ∧ w'.env.log = w.env.log := by
  obtain ⟨hh, hpc⟩ := hs
  obtain ⟨pc, hn, rem, sta⟩ := s
  simp only at hh hpc
  subst hh
  rcases hpc with h | h | h <;> subst h
  · refine ⟨w, ({ pc := .horizonWait, hours_to_next := 0,
                  remainder := w.env.max_run_time - w.env.now,
                  start := sta } : MaintLocal),
      ?_, ⟨rfl, Or.inr (Or.inl rfl)⟩, rfl, rfl⟩
    cases inp <;> simp [maintStep, hm]
  · cases inp with
    | drawResult h =>
      exact ⟨w, ({ pc := .horizonWait, hours_to_next := 0, remainder := rem,
                   start := sta } : MaintLocal),
        rfl, ⟨rfl, Or.inr (Or.inl rfl)⟩, rfl, rfl⟩
    | tick =>
      exact ⟨w, ({ pc := .horizonWait, hours_to_next := 0, remainder := rem,
                   start := sta } : MaintLocal),
        rfl, ⟨rfl, Or.inr (Or.inl rfl)⟩, rfl, rfl⟩
    | resume now intr =>
      cases intr with
      | false =>
        exact ⟨{ w with env := { w.env with now := now } },
          ({ pc := .innerTest, hours_to_next := 0, remainder := rem,
             start := sta } : MaintLocal),
          by simp [maintStep], ⟨rfl, Or.inr (Or.inr rfl)⟩, rfl, rfl⟩
      | true =>
        exact ⟨{ w with env := { w.env with now := now } },
          ({ pc := .innerTest, hours_to_next := 0, remainder := rem - now,
             start := sta } : MaintLocal),
          by simp [maintStep], ⟨rfl, Or.inr (Or.inr rfl)⟩, rfl, rfl⟩
  · refine ⟨w, ({ pc := .top, hours_to_next := 0, remainder := rem,
                  start := sta } : MaintLocal),
      ?_, ⟨rfl, Or.inl rfl⟩, rfl, rfl⟩
    cases inp <;> simp [maintStep]

theorem maint_freq_zero_run (m : Maintenance) (hm : m.frequency = 0)
    (inputs : List ProcInput) :
    ∀ (w : World) (s : MaintLocal), MaintIdle s →
      ∃ w' s', maintRun m inputs w s = .ok (w', s') ∧ MaintIdle s' ∧
        w'.rm = w.rm ∧ w'.env.log = w.env.log := by
  induction inputs with
  | nil => intro w s hs; exact ⟨w, s, rfl, hs, rfl, rfl⟩
  | cons i rest ih =>
    intro w s hs
    obtain ⟨w1, s1, hstep, hs1, hrm1, hlog1⟩ := maint_freq_zero_step m hm w s i hs
    obtain ⟨w2, s2, hrun, hs2, hrm2, hlog2⟩ := ih w1 s1 hs1
    refine ⟨w2, s2, ?_, hs2, hrm2.trans hrm1, hlog2.trans hlog1⟩
    rw [maintRun, hstep]
    exact hrun

/-- Claim C5 amended: a Maintenance Timer whose spec has `frequency = 0`
never builds or submits a maintenance request under any input schedule
(interrupted or not) — it waits out the simulation horizon and idles; with
a 500-hour horizon there are zero requests at t = 500, not one. -/
theorem freq_zero_maintenance_never_requests (m : Maintenance)
    (hm : m.frequency = 0) (inputs : List ProcInput) (w : World) :
    ∃ w' s', maintRun m inputs w maintInit = .ok (w', s') ∧
      w'.rm = w.rm ∧ w'.env.log = w.env.log := by
  obtain ⟨w', s', hrun, -, hrm, hlog⟩ :=
    maint_freq_zero_run m hm inputs w maintInit ⟨rfl, Or.inl rfl⟩
  exact ⟨w', s', hrun, hrm, hlog⟩

/-- Witness for the amended C5 at the concrete 500-hour scenario. -/
theorem freq_zero_maintenance_never_requests_witness :
    (0 : ℚ) = 0 ∧
    ∃ w' s', maintRun ⟨0, "annual service"⟩
        [.tick, .resume 500 false, .tick, .tick, .resume 500 false, .tick]
        c5World maintInit = .ok (w', s') ∧
      w'.rm = c5World.rm ∧ w'.env.log = c5World.env.log :=
  ⟨rfl, freq_zero_maintenance_never_requests ⟨0, "annual service"⟩ rfl
    [.tick, .resume 500 false, .tick, .tick, .resume 500 false, .tick] c5World⟩

/-- A variant of `sampleWorld` whose cable has a blocked `broken`
signal. -/
def sampleWorldBroken : World :=
  { sampleWorld with cable := { sampleCable with broken := ⟨2, false⟩ } }

/-- Counterexample to claim C7: interrupting a maintenance countdown of 10
hours started at t = 2, at t = 5, with `broken` clear (not blocked), does
NOT restart the cycle from zero — the countdown becomes 7; and with
`broken` blocked the countdown is zeroed rather than reduced by the
elapsed time.  The claim has the two branches swapped. -/
theorem maintenance_interrupt_branches_swapped :
    sampleWorld.cable.broken.triggered = true ∧
    maintStep ⟨100, "inspection"⟩ sampleWorld
        { pc := .countdownWait, hours_to_next := 10, remainder := 0, start := some 2 }
        (.resume 5 true) =
      .ok ({ sampleWorld with env := { sampleWorld.env with now := 5 } },
           { pc := .innerTest, hours_to_next := (10 : ℚ) - (5 - 2), remainder := 0,
             start := some 2 }) ∧
    (10 : ℚ) - (5 - 2) ≠ 0 ∧
    sampleWorldBroken.cable.broken.triggered = false ∧
    maintStep ⟨100, "inspection"⟩ sampleWorldBroken
        { pc := .countdownWait, hours_to_next := 10, remainder := 0, start := some 2 }
        (.resume 5 true) =
      .ok ({ sampleWorldBroken with env := { sampleWorldBroken.env with now := 5 } },
           { pc := .innerTest, hours_to_next := 0, remainder := 0, start := some 2 }) ∧
    (0 : ℚ) ≠ 10 - (5 - 2) :=
  ⟨rfl, rfl, by norm_num, rfl, rfl, by norm_num⟩

/-- Claim C7 amended: on an interrupt during a maintenance countdown, if
`broken` is blocked the countdown is zeroed and the next loop iteration
starts a fresh cycle; if `broken` is clear the elapsed time is subtracted
and the countdown resumes with the reduced duration. -/
theorem maintenance_countdown_interrupt_semantics (m : Maintenance)
    (w : World) (s : MaintLocal) (h st now : ℚ) (hpc : s.pc = .countdownWait)
    (hh : s.hours_to_next = h) (hst : s.start = some st) :
    (w.cable.broken.triggered = false →
      maintStep m w s (.resume now true) =
        .ok ({ w with env := { w.env with now := now } },
             { s with hours_to_next := 0, pc := .innerTest }) ∧
      maintStep m { w with env := { w.env with now := now } }
          { s with hours_to_next := 0, pc := .innerTest } .tick =
        .ok ({ w with env := { w.env with now := now } },
             { s with hours_to_next := 0, pc := .top })) ∧
    (w.cable.broken.triggered = true →
      maintStep m w s (.resume now true) =
        .ok ({ w with env := { w.env with now := now } },
             { s with hours_to_next := h - (now - st), pc := .innerTest }) ∧
      (h - (now - st)) + (now - st) = h) := by
  obtain ⟨pc, hn, rem, sta⟩ := s
  simp only at hpc hh hst
  subst hpc hh hst
  constructor
  · intro hb
    constructor
    · simp [maintStep, maintInterruptHandler, hb, Except.map]
    · simp [maintStep]
  · intro hb
    constructor
    · simp [maintStep, maintInterruptHandler, hb, Except.map]
    · ring

/-- Witness for the amended C7 in both branches, at a countdown of 10
hours started at t = 2 and interrupted at t = 5. -/
theorem maintenance_countdown_interrupt_semantics_witness :
    (sampleWorld.cable.broken.triggered = false →
      maintStep ⟨100, "inspection"⟩ sampleWorld
          { pc := .countdownWait, hours_to_next := 10, remainder := 0, start := some 2 }
          (.resume 5 true) =
        .ok ({ sampleWorld with env := { sampleWorld.env with now := 5 } },
             { pc := .innerTest, hours_to_next := 0, remainder := 0, start := some 2 }) ∧
      maintStep ⟨100, "inspection"⟩
          { sampleWorld with env := { sampleWorld.env with now := 5 } }
          { pc := .innerTest, hours_to_next := 0, remainder := 0, start := some 2 }
          .tick =
        .ok ({ sampleWorld with env := { sampleWorld.env with now := 5 } },
             { pc := .top, hours_to_next := 0, remainder := 0, start := some 2 })) ∧
    (sampleWorld.cable.broken.triggered = true →
      maintStep ⟨100, "inspection"⟩ sampleWorld
          { pc := .countdownWait, hours_to_next := 10, remainder := 0, start := some 2 }
          (.resume 5 true) =
        .ok ({ sampleWorld with env := { sampleWorld.env with now := 5 } },
             { pc := .innerTest, hours_to_next := (10 : ℚ) - (5 - 2), remainder := 0,
               start := some 2 }) ∧
      ((10 : ℚ) - (5 - 2)) + (5 - 2) = 10) :=
  maintenance_countdown_interrupt_semantics ⟨100, "inspection"⟩ sampleWorld
    { pc := .countdownWait, hours_to_next := 10, remainder := 0, start := some 2 }
    10 2 5 rfl rfl rfl

/-- A directed graph as an adjacency list with ordered successor lists —
the shape of `windfarm.graph` at the boundary `Cable.__init__` uses. -/
def Graph : Type := List (String × List String)

/-- Successor list of a node. -/
def successors (g : Graph) (u : String) : List String :=
  match g.find? (fun p => p.1 = u) with
  | some p => p.2
  | none => []

/-- Modelled from the spec: the topology collaborator's depth-first node
traversal (`nx.dfs_edges` semantics): from `u`, walk the successor lists
in order, emitting the tree edge `(u, v)` the first time `v` is
discovered, depth first.  Returns the emitted edges and the visited
set. -/
def dfsVisit (g : Graph) : Nat → String → List String →
    List (String × String) × List String
  | 0, _, vis => ([], vis)
  | fuel + 1, u, vis =>
    (successors g u).foldl
      (fun acc v =>
        if v ∈ acc.2 then acc
        else
          let r := dfsVisit g fuel v (v :: acc.2)
          (acc.1 ++ (u, v) :: r.1, r.2))
      ([], vis)

/-- The DFS tree edges from a source, in discovery order. -/
def dfsEdges (g : Graph) (fuel : Nat) (src : String) : List (String × String) :=
  (dfsVisit g fuel src [src]).1

/-- Append one edge's target to its source's group, preserving
first-occurrence key order — the `d[s].append(t)` loop building
`nx.dfs_successors` from `dfs_edges`. -/
def addEdge : List (String × List String) → String × String →
    List (String × List String)
  | [], e => [(e.1, [e.2])]
  | (k, vs) :: rest, e =>
    if k = e.1 then (k, vs ++ [e.2]) :: rest else (k, vs) :: addEdge rest e

/-- Modelled from the spec: `nx.dfs_successors` — DFS tree children
grouped by parent, parents in discovery order. -/
def dfsSuccessors (g : Graph) (fuel : Nat) (src : String) :
    List (String × List String) :=
  (dfsEdges g fuel src).foldl addEdge []

/-- The `upstream_nodes` computation of `Cable.__init__`: the end node
first, then — when the DFS successor map is nonempty — the concatenation
of all its value lists. -/
def upstreamNodesCalc (g : Graph) (fuel : Nat) (end_node : String) :
    List String :=
  let up := dfsSuccessors g fuel end_node
  if up.length > 0 then end_node :: (up.map Prod.snd).flatten else [end_node]

/-- Modelled from the spec: the topology collaborator's depth-first edge
traversal (`nx.edge_dfs` semantics): a node stack and a visited-edge set;
each step follows the first unvisited out-edge of the stack top, else
pops. -/
def edgeDfsAux (g : Graph) : Nat → List String → List (String × String) →
    List (String × String)
  | 0, _, _ => []
  | _ + 1, [], _ => []
  | fuel + 1, u :: rest, visE =>
    match (successors g u).find? (fun v => (u, v) ∉ visE) with
    | some v => (u, v) :: edgeDfsAux g fuel (v :: u :: rest) ((u, v) :: visE)
    | none => edgeDfsAux g fuel rest visE

/-- The `upstream_cables` computation of `Cable.__init__`:
`list(nx.edge_dfs(graph, end_node))`. -/
def upstreamCablesCalc (g : Graph) (fuel : Nat) (end_node : String) :
    List (String × String) :=
  edgeDfsAux g fuel [end_node] []

/-- Plain DFS preorder from a source (the "DFS order" of nodes the claim
refers to): visit a node, then its successors depth first, recording nodes
in discovery order. -/
def dfsPreorder (g : Graph) : Nat → String → List String → List String
  | 0, _, vis => vis
  | fuel + 1, u, vis =>
    if u ∈ vis then vis
    else (successors g u).foldl (fun acc v => dfsPreorder g fuel v acc) (vis ++ [u])

/-- DFS preorder starting from an empty visited list. -/
def dfsOrder (g : Graph) (fuel : Nat) (src : String) : List String :=
  dfsPreorder g fuel src []

/-- A branching tree on which grouped-by-parent order differs from DFS
preorder. -/
def c9Graph : Graph := [("a", ["b", "c"]), ("b", ["d"])]

/-- Counterexample to claim C9: on the tree a→b, a→c, b→d the constructor
computes `upstream_nodes = [a, b, c, d]` (children grouped by parent),
while the nodes in DFS order are `[a, b, d, c]`; the two disagree. -/
theorem upstream_nodes_not_dfs_order :
    upstreamNodesCalc c9Graph 10 "a" = ["a", "b", "c", "d"] ∧
    dfsOrder c9Graph 10 "a" = ["a", "b", "d", "c"] ∧
    upstreamNodesCalc c9Graph 10 "a" ≠ dfsOrder c9Graph 10 "a" := by
  refine ⟨by decide, by decide, by decide⟩

theorem addEdge_join_perm (acc : List (String × List String))
    (e : String × String) :
    List.Perm (((addEdge acc e).map Prod.snd).flatten)
      ((acc.map Prod.snd).flatten ++ [e.2]) := by
  induction acc with
  | nil => simp [addEdge]
  | cons kv rest ih =>
    obtain ⟨k, vs⟩ := kv
    by_cases hk : k = e.1
    · simp only [addEdge, if_pos hk, List.map_cons, List.flatten_cons]
      have hc : List.Perm ([e.2] ++ (rest.map Prod.snd).flatten)
          ((rest.map Prod.snd).flatten ++ [e.2]) := List.perm_append_comm
      simpa [List.append_assoc] using List.Perm.append_left vs hc
    · simp only [addEdge, if_neg hk, List.map_cons, List.flatten_cons]
      simpa [List.append_assoc] using List.Perm.append_left vs ih

theorem foldl_addEdge_join_perm (es : List (String × String)) :
    ∀ acc : List (String × List String),
      List.Perm (((es.foldl addEdge acc).map Prod.snd).flatten)
        ((acc.map Prod.snd).flatten ++ es.map Prod.snd) := by
  induction es with
  | nil => intro acc; simp
  | cons e rest ih =>
    intro acc
    have h1 := ih (addEdge acc e)
    have h2 := List.Perm.append_right (rest.map Prod.snd) (addEdge_join_perm acc e)
    have h3 := h1.trans h2
    simpa [List.append_assoc] using h3

theorem failurePostCountdown_upstream (f : Failure) (w : World) (s : FailLocal) :
    (failurePostCountdown f w s).1.cable.upstream_nodes =
        w.cable.upstream_nodes ∧
    (failurePostCountdown f w s).1.cable.upstream_cables =
        w.cable.upstream_cables := by
  by_cases h : f.operation_reduction = 1 <;>
    simp [failurePostCountdown, h, stopAllUpstream_cable]

theorem map_pair_ok {α β : Type} (res : Except PyError α) (w2 w' : β) (s' : α)
    (h : Except.map (fun t => (w2, t)) res = Except.ok (w', s')) : w' = w2 := by
  cases res with
  | error e => simp [Except.map] at h
  | ok t =>
    simp only [Except.map, Except.ok.injEq, Prod.mk.injEq] at h
    exact h.1.symm

theorem failStep_preserves_upstream (f : Failure) (w : World) (s : FailLocal)
    (i : ProcInput) (w' : World) (s' : FailLocal)
    (h : failStep f w s i = .ok (w', s')) :
    w'.cable.upstream_nodes = w.cable.upstream_nodes ∧
    w'.cable.upstream_cables = w.cable.upstream_cables := by
  unfold failStep at h
  split at h
  all_goals try split at h
  all_goals try split at h
  all_goals
    first
      | exact (Except.noConfusion h)
      | (injection h with h1; injection h1 with hw hs; subst hw; exact ⟨rfl, rfl⟩)
      | (have hw := map_pair_ok _ _ _ _ h; subst hw; exact ⟨rfl, rfl⟩)
      | (injection h with h1
         rename_i now1 intr1 heq1 hintr1
         have hp := failurePostCountdown_upstream f
           { w with env := { w.env with now := now1 } } s
         rw [h1] at hp
         exact hp)

theorem maintPostCountdown_cable (m : Maintenance) (w : World) (s : MaintLocal) :
    (maintPostCountdown m w s).1.cable = w.cable := rfl

theorem maintStep_preserves_upstream (m : Maintenance) (w : World) (s : MaintLocal)
    (i : ProcInput) (w' : World) (s' : MaintLocal)
    (h : maintStep m w s i = .ok (w', s')) :
    w'.cable.upstream_nodes = w.cable.upstream_nodes ∧
    w'.cable.upstream_cables = w.cable.upstream_cables := by
  unfold maintStep at h
  split at h
  all_goals try split at h
  all_goals
    first
      | exact (Except.noConfusion h)
      | (injection h with h1; injection h1 with hw hs; subst hw; exact ⟨rfl, rfl⟩)
      | (have hw := map_pair_ok _ _ _ _ h; subst hw; exact ⟨rfl, rfl⟩)

/-- Claim C9 amended: `upstream_nodes` is the end node followed by the DFS
tree children grouped by parent (parents in discovery order) — the same
multiset as the DFS tree targets in discovery order, but not interleaved
preorder; `upstream_cables` is exactly the depth-first edge traversal
output in its order; and neither field is ever mutated by a failure or
maintenance process step. -/
theorem upstream_topology_characterization (g : Graph) (fuel : Nat) (e : String) :
    upstreamNodesCalc g fuel e =
      e :: ((dfsSuccessors g fuel e).map Prod.snd).flatten ∧
    List.Perm (((dfsSuccessors g fuel e).map Prod.snd).flatten)
      ((dfsEdges g fuel e).map Prod.snd) ∧
    upstreamCablesCalc g fuel e = edgeDfsAux g fuel [e] [] ∧
    (∀ (f : Failure) (w : World) (s : FailLocal) (i : ProcInput)
        (w' : World) (s' : FailLocal),
        failStep f w s i = .ok (w', s') →
        w'.cable.upstream_nodes = w.cable.upstream_nodes ∧
        w'.cable.upstream_cables = w.cable.upstream_cables) ∧
    (∀ (m : Maintenance) (w : World) (s : MaintLocal) (i : ProcInput)
        (w' : World) (s' : MaintLocal),
        maintStep m w s i = .ok (w', s') →
        w'.cable.upstream_nodes = w.cable.upstream_nodes ∧
        w'.cable.upstream_cables = w.cable.upstream_cables) := by
  refine ⟨?_, ?_, rfl, failStep_preserves_upstream, maintStep_preserves_upstream⟩
  · by_cases hup : (dfsSuccessors g fuel e).length > 0
    · simp [upstreamNodesCalc, hup]
    · have hnil : dfsSuccessors g fuel e = [] := by
        cases hd : dfsSuccessors g fuel e with
        | nil => rfl
        | cons a l => rw [hd] at hup; simp at hup
      simp [upstreamNodesCalc, hup, hnil]
  · simpa using foldl_addEdge_join_perm (dfsEdges g fuel e) []

/-- Witness for the amended C9 at the concrete branching tree and at a
concrete failure/maintenance step. -/
theorem upstream_topology_characterization_witness :
    upstreamNodesCalc c9Graph 10 "a" =
      "a" :: ((dfsSuccessors c9Graph 10 "a").map Prod.snd).flatten ∧
    List.Perm (((dfsSuccessors c9Graph 10 "a").map Prod.snd).flatten)
      ((dfsEdges c9Graph 10 "a").map Prod.snd) ∧
    (failStep sampleFailure sampleWorld failInit .tick =
        .ok (sampleWorld, failInit) ∧
      sampleWorld.cable.upstream_nodes = sampleWorld.cable.upstream_nodes ∧
      sampleWorld.cable.upstream_cables = sampleWorld.cable.upstream_cables) ∧
    (maintStep ⟨100, "inspection"⟩ sampleWorld maintInit .tick =
        .ok (sampleWorld, { pc := .innerTest, hours_to_next := 100,
                            remainder := 0, start := none }) ∧
      sampleWorld.cable.upstream_nodes = sampleWorld.cable.upstream_nodes ∧
      sampleWorld.cable.upstream_cables = sampleWorld.cable.upstream_cables) :=
  ⟨(upstream_topology_characterization c9Graph 10 "a").1,
   (upstream_topology_characterization c9Graph 10 "a").2.1,
   ⟨rfl, (upstream_topology_characterization c9Graph 10 "a").2.2.2.1
      sampleFailure sampleWorld failInit .tick sampleWorld failInit rfl⟩,
   ⟨rfl, (upstream_topology_characterization c9Graph 10 "a").2.2.2.2
      ⟨100, "inspection"⟩ sampleWorld maintInit .tick sampleWorld
      { pc := .innerTest, hours_to_next := 100, remainder := 0, start := none } rfl⟩⟩

end Wombat
